import Mathlib

/-!
VoIP over Wi-Fi QoS comparison: scenario generator and flow-statistics reduction.

Shallow embedding of `RunSimulation` from `src/scratch/voip-qos-wifi.cc`.

Conventions of the embedding.

* `double` values are modelled by exact rationals `ℚ` (no rounding error).
* `uint32_t` / `uint16_t` arithmetic is modelled on `Nat` with an explicit
  reduction modulo `2^32` / `2^16` at every place where the source computes in
  that type.
* The local constants of `RunSimulation` (`nWifiNodes`, `packetInterval`,
  `packetSize`, `simulationTime`) are parameters of the definitions; their
  source values are recorded as `nWifiNodes`, `packetInterval`, `packetSize`
  and `simulationTime` below.
* Calls into the simulation engine are recorded by the arguments handed over
  (a `FlowDescriptor` is the argument tuple of one `UdpClientHelper` install).
  The `Interval` attribute is recorded as the `uint64_t` number of milliseconds
  that `MilliSeconds` receives: the `double` computed by the program is
  converted to `uint64_t` at the call, which drops its fraction.
-/

namespace VoipQos

/-! ## Flow statistics (lines 179-212) -/

/-- Reduction of a natural number to the range of `uint32_t`. -/
def u32 (x : Nat) : Nat := x % 2 ^ 32

/-- Reduction of a natural number to the range of `uint16_t`. -/
def u16 (x : Nat) : Nat := x % 2 ^ 16

/-- The fields of `FlowMonitor::FlowStats` read by `RunSimulation`.
`delaySumMs` and `jitterSumMs` are the `int64_t` values returned by
`delaySum.GetMilliSeconds()` and `jitterSum.GetMilliSeconds()`. -/
structure FlowStats where
  txPackets : Nat
  rxPackets : Nat
  lostPackets : Nat
  rxBytes : Nat
  delaySumMs : Int
  jitterSumMs : Int
  deriving DecidableEq, Repr

/-- Key of the flow-statistics map. -/
abbrev FlowId := Nat

/-- The container `FlowMonitor::FlowStatsContainer`
(`std::map<FlowId, FlowStats>`), listed in iteration order. -/
abbrev FlowStatsContainer := List (FlowId × FlowStats)

/-- The six accumulators declared at lines 184-189. -/
structure StatsAcc where
  avgThroughput : ℚ
  avgDelay : ℚ
  avgJitter : ℚ
  lostPackets : Nat
  txPackets : Nat
  rxPackets : Nat
  deriving DecidableEq

/-- Initial values of the accumulators (lines 184-189). -/
def statsInit : StatsAcc :=
  { avgThroughput := 0, avgDelay := 0, avgJitter := 0,
    lostPackets := 0, txPackets := 0, rxPackets := 0 }

/-- Per-flow delay term of line 202:
`rxPackets > 0 ? delaySum.GetMilliSeconds() / rxPackets : 0.0`.
The quotient is an `int64_t / uint32_t` division, i.e. a signed integer
division truncating toward zero, converted to `double` afterwards. -/
def flowDelay (s : FlowStats) : ℚ :=
  if s.rxPackets > 0 then ((Int.tdiv s.delaySumMs (s.rxPackets : Int) : Int) : ℚ) else 0

/-- Per-flow jitter term of line 203:
`(rxPackets > 1) ? jitterSum.GetMilliSeconds() / (rxPackets - 1) : 0.0`,
again an integer division. -/
def flowJitter (s : FlowStats) : ℚ :=
  if s.rxPackets > 1 then
    ((Int.tdiv s.jitterSumMs ((s.rxPackets - 1 : Nat) : Int) : Int) : ℚ)
  else 0

/-- Per-flow throughput term of line 201:
`rxBytes * 8.0 / (simulationTime * 1000000.0)`. -/
def flowThroughput (simulationTime : ℚ) (s : FlowStats) : ℚ :=
  (s.rxBytes : ℚ) * 8 / (simulationTime * 1000000)

/-- One iteration of the loop at lines 192-204. -/
def statsStep (simulationTime : ℚ) (acc : StatsAcc) (stat : FlowId × FlowStats) : StatsAcc :=
  { txPackets := u32 (acc.txPackets + stat.2.txPackets)
    rxPackets := u32 (acc.rxPackets + stat.2.rxPackets)
    lostPackets := u32 (acc.lostPackets + stat.2.lostPackets)
    avgThroughput := acc.avgThroughput + flowThroughput simulationTime stat.2
    avgDelay := acc.avgDelay + flowDelay stat.2
    avgJitter := acc.avgJitter + flowJitter stat.2 }

/-- The whole loop at lines 192-204. -/
def statsLoop (simulationTime : ℚ) (stats : FlowStatsContainer) : StatsAcc :=
  stats.foldl (statsStep simulationTime) statsInit

/-- The summary printed at lines 214-221. -/
structure VariantSummary where
  qosType : String
  avgThroughput : ℚ
  avgDelay : ℚ
  avgJitter : ℚ
  packetLossRate : ℚ
  txPackets : Nat
  rxPackets : Nat
  lostPackets : Nat
  deriving DecidableEq

/-- The statistics reduction of `RunSimulation` (lines 184-212): the loop, the
guarded division by `stats.size()` and the guarded loss rate. -/
def Summarize (qosType : String) (stats : FlowStatsContainer) (simulationTime : ℚ) :
    VariantSummary :=
  let acc := statsLoop simulationTime stats
  let size : ℚ := (stats.length : ℚ)
  { qosType := qosType
    avgThroughput := if !stats.isEmpty then acc.avgThroughput / size else acc.avgThroughput
    avgDelay := if !stats.isEmpty then acc.avgDelay / size else acc.avgDelay
    avgJitter := if !stats.isEmpty then acc.avgJitter / size else acc.avgJitter
    packetLossRate :=
      if acc.txPackets > 0 then 100 * (acc.lostPackets : ℚ) / (acc.txPackets : ℚ) else 0
    txPackets := acc.txPackets
    rxPackets := acc.rxPackets
    lostPackets := acc.lostPackets }

/-- The loop of lines 192-204 instrumented with a counter of the division
operations it executes: one for the throughput term, one for the delay term
when `rxPackets > 0`, one for the jitter term when `rxPackets > 1`. -/
def statsStepTraced (simulationTime : ℚ) (st : StatsAcc × Nat) (stat : FlowId × FlowStats) :
    StatsAcc × Nat :=
  (statsStep simulationTime st.1 stat,
   st.2 + 1 + (if stat.2.rxPackets > 0 then 1 else 0) + (if stat.2.rxPackets > 1 then 1 else 0))

/-- `Summarize` together with the number of divisions executed on the way:
those of the loop, the three of the block guarded by `!stats.empty()` and the
one of the loss rate guarded by `txPackets > 0`. -/
def SummarizeTraced (qosType : String) (stats : FlowStatsContainer) (simulationTime : ℚ) :
    VariantSummary × Nat :=
  let st := stats.foldl (statsStepTraced simulationTime) (statsInit, 0)
  let acc := st.1
  let size : ℚ := (stats.length : ℚ)
  ({ qosType := qosType
     avgThroughput := if !stats.isEmpty then acc.avgThroughput / size else acc.avgThroughput
     avgDelay := if !stats.isEmpty then acc.avgDelay / size else acc.avgDelay
     avgJitter := if !stats.isEmpty then acc.avgJitter / size else acc.avgJitter
     packetLossRate :=
       if acc.txPackets > 0 then 100 * (acc.lostPackets : ℚ) / (acc.txPackets : ℚ) else 0
     txPackets := acc.txPackets
     rxPackets := acc.rxPackets
     lostPackets := acc.lostPackets },
   st.2 + (if !stats.isEmpty then 3 else 0) + (if acc.txPackets > 0 then 1 else 0))

/-! ### Reference quantities in the words of the specification -/

/-- Exact per-flow mean delay `delaySum / rxPackets` (0 when `rxPackets = 0`). -/
def exactFlowDelay (s : FlowStats) : ℚ :=
  if s.rxPackets > 0 then (s.delaySumMs : ℚ) / (s.rxPackets : ℚ) else 0

/-- Exact per-flow mean jitter `jitterSum / (rxPackets - 1)` (0 when `rxPackets ≤ 1`). -/
def exactFlowJitter (s : FlowStats) : ℚ :=
  if s.rxPackets > 1 then (s.jitterSumMs : ℚ) / ((s.rxPackets : ℚ) - 1) else 0

/-- Arithmetic mean over the flows of a per-flow quantity. -/
def flowMean (g : FlowStats → ℚ) (stats : FlowStatsContainer) : ℚ :=
  (stats.map (fun stat => g stat.2)).sum / (stats.length : ℚ)

/-- Sum over the flows of a per-flow counter. -/
def flowTotal (g : FlowStats → Nat) (stats : FlowStatsContainer) : Nat :=
  (stats.map (fun stat => g stat.2)).sum

/-- The single-flow example of the specification:
`tx 1000, rx 950, lost 50, rxBytes 950000, delaySum 9500 ms, jitterSum 940 ms`. -/
def exampleStats : FlowStatsContainer :=
  [(1, { txPackets := 1000, rxPackets := 950, lostPackets := 50, rxBytes := 950000,
         delaySumMs := 9500, jitterSumMs := 940 })]

/-- Two flows with `2^31` transmitted and lost packets each: the 32-bit
totals of lines 197-199 wrap around. -/
def wrapStats : FlowStatsContainer :=
  [(1, { txPackets := 2147483648, rxPackets := 0, lostPackets := 2147483648, rxBytes := 0,
         delaySumMs := 0, jitterSumMs := 0 }),
   (2, { txPackets := 2147483648, rxPackets := 0, lostPackets := 2147483648, rxBytes := 0,
         delaySumMs := 0, jitterSumMs := 0 })]

/-! ## Traffic generation (lines 116-155) -/

/-- Source value of `nWifiNodes` (line 22). -/
def nWifiNodes : Nat := 3

/-- Source value of `packetInterval` (line 23). -/
def packetInterval : ℚ := 50

/-- Source value of `packetSize` (line 24). -/
def packetSize : Nat := 1000

/-- Source value of `simulationTime` (line 21). -/
def simulationTime : ℚ := 100

/-- A node an application is installed on or addressed to. -/
inductive Endpoint where
  | station (i : Nat)
  | server
  deriving DecidableEq, Repr

/-- Direction of a client flow: station to server or server to station. -/
inductive Direction where
  | forward
  | ret
  deriving DecidableEq, Repr

/-- Conversion of a `double` to `uint64_t`, as applied to the argument of
`MilliSeconds(uint64_t)` at lines 129 and 148: the value is truncated toward
zero. The conversion is undefined, `none`, when the truncated value is outside
the range of `uint64_t`. -/
def doubleToUint64 (x : ℚ) : Option Nat :=
  if -1 < x ∧ x < 2 ^ 64 then some ⌊x⌋.toNat else none

/-- The arguments of one `UdpClientHelper` installation: the node it is
installed on, the destination address and port, the `PacketSize` and `Interval`
attributes and the start and stop times (seconds). `intervalMs` is the whole
number of milliseconds received by `MilliSeconds`, `none` when the conversion
of the `double` is undefined. -/
structure FlowDescriptor where
  source : Endpoint
  destination : Endpoint
  direction : Direction
  port : Nat
  packetSize : Nat
  intervalMs : Option Nat
  start : ℚ
  stop : ℚ
  deriving DecidableEq

/-- Port of the server application (line 117), used by every forward client
(line 127). -/
def serverPort : Nat := 5000

/-- Body of the loop at lines 125-136 for station `i`:
`adjustedInterval = packetInterval + (i * 10)` with `i * 10` computed in
`uint32_t`, interval `MilliSeconds(adjustedInterval)`, destination
`csmaInterfaces.GetAddress(1)` (the server) at `port`, start `5.0 + i * 3.0`,
stop `simulationTime`. -/
def forwardClient (I : ℚ) (s : Nat) (T : ℚ) (i : Nat) : FlowDescriptor :=
  { source := .station i
    destination := .server
    direction := .forward
    port := serverPort
    packetSize := s
    intervalMs := doubleToUint64 (I + ((u32 (i * 10) : Nat) : ℚ))
    start := 5 + (i : ℚ) * 3
    stop := T }

/-- Body of the loop at lines 139-155 for station `i`:
`uint16_t returnPort = 6000 + i`, destination `wifiInterfaces.GetAddress(i)`,
interval `MilliSeconds(packetInterval + 20)`, start `10.0 + i * 2.0`, stop
`simulationTime`. -/
def returnClient (I : ℚ) (s : Nat) (T : ℚ) (i : Nat) : FlowDescriptor :=
  { source := .server
    destination := .station i
    direction := .ret
    port := u16 (6000 + i)
    packetSize := s
    intervalMs := doubleToUint64 (I + 20)
    start := 10 + (i : ℚ) * 2
    stop := T }

/-- The container `allClientApps` after both loops: the forward clients of
stations `0 .. n-1` followed by the return clients of stations `0 .. n-1`. -/
def allClientApps (n : Nat) (I : ℚ) (s : Nat) (T : ℚ) : List FlowDescriptor :=
  (List.range n).map (forwardClient I s T) ++ (List.range n).map (returnClient I s T)

/-- The schedule condition of the specification: `0 ≤ start < stop ≤ T`. -/
def validSchedule (T : ℚ) (d : FlowDescriptor) : Prop :=
  0 ≤ d.start ∧ d.start < d.stop ∧ d.stop ≤ T

/-- Selects the forward flow installed on station `i`. -/
def isForwardOf (i : Nat) (d : FlowDescriptor) : Bool :=
  decide (d.direction = .forward ∧ d.source = .station i)

/-- Selects the return flow addressed to station `i`. -/
def isReturnTo (i : Nat) (d : FlowDescriptor) : Bool :=
  decide (d.direction = .ret ∧ d.destination = .station i)

/-- The return flows among a list of descriptors. -/
def returnFlows (ds : List FlowDescriptor) : List FlowDescriptor :=
  ds.filter (fun d => decide (d.direction = .ret))

/-- The forward flows among a list of descriptors. -/
def forwardFlows (ds : List FlowDescriptor) : List FlowDescriptor :=
  ds.filter (fun d => decide (d.direction = .forward))

/-! ## QoS policy (lines 69-84) and the callers in `main` (lines 226-234) -/

/-- The remote station manager set on the `WifiHelper`. -/
inductive RateManager where
  | constantRate
  | minstrelHt
  deriving DecidableEq, Repr

/-- The settings touched by the QoS block: the station manager of the local
`WifiHelper` and the process-wide defaults `ns3::WifiMacQueue::MaxSize`
(packets) and `ns3::WifiMacQueue::MaxDelay` (milliseconds); `none` stands for
a default that has not been overridden. -/
structure VariantPolicy where
  stationManager : RateManager
  queueMaxSize : Option Nat
  queueMaxDelayMs : Option Nat
  deriving DecidableEq, Repr

/-- State before the first run: constant-rate manager (line 72), no default
overridden yet. -/
def initialPolicy : VariantPolicy :=
  { stationManager := .constantRate, queueMaxSize := none, queueMaxDelayMs := none }

/-- Lines 72-84: the helper is given the constant-rate manager, then the
branch on `qosType == "EDCA"` with an unconditional `else`. -/
def configureQos (qosType : String) (prior : VariantPolicy) : VariantPolicy :=
  let wifi : VariantPolicy := { prior with stationManager := .constantRate }
  if qosType == "EDCA" then
    { wifi with queueMaxSize := some 500, queueMaxDelayMs := some 100 }
  else
    { wifi with stationManager := .minstrelHt, queueMaxSize := some 800,
                queueMaxDelayMs := some 50 }

/-- The variant names `main` passes to `RunSimulation`, in call order. -/
def mainVariants : List String := ["EDCA", "WMM"]

/-! ## Lemmas on the statistics loop -/

theorem u32_add_u32 (a b : Nat) : u32 (u32 a + b) = u32 (a + b) := by
  unfold u32
  omega

/-- State of the accumulators after the loop, started from any values. -/
theorem foldl_statsStep (T : ℚ) (stats : FlowStatsContainer) (acc : StatsAcc) :
    (stats.foldl (statsStep T) acc).avgThroughput
        = acc.avgThroughput + (stats.map (fun stat => flowThroughput T stat.2)).sum ∧
    (stats.foldl (statsStep T) acc).avgDelay
        = acc.avgDelay + (stats.map (fun stat => flowDelay stat.2)).sum ∧
    (stats.foldl (statsStep T) acc).avgJitter
        = acc.avgJitter + (stats.map (fun stat => flowJitter stat.2)).sum ∧
    u32 (stats.foldl (statsStep T) acc).txPackets
        = u32 (acc.txPackets + flowTotal (fun s => s.txPackets) stats) ∧
    u32 (stats.foldl (statsStep T) acc).rxPackets
        = u32 (acc.rxPackets + flowTotal (fun s => s.rxPackets) stats) ∧
    u32 (stats.foldl (statsStep T) acc).lostPackets
        = u32 (acc.lostPackets + flowTotal (fun s => s.lostPackets) stats) := by
  induction stats generalizing acc with
  | nil => simp [flowTotal]
  | cons x xs ih =>
    obtain ⟨h1, h2, h3, h4, h5, h6⟩ := ih (statsStep T acc x)
    simp only [List.foldl_cons, List.map_cons, List.sum_cons, flowTotal]
    simp only [flowTotal] at h4 h5 h6
    refine ⟨?_, ?_, ?_, ?_, ?_, ?_⟩
    · rw [h1]; simp only [statsStep]; ring
    · rw [h2]; simp only [statsStep]; ring
    · rw [h3]; simp only [statsStep]; ring
    · rw [h4]; simp only [statsStep]; rw [u32_add_u32, Nat.add_assoc]
    · rw [h5]; simp only [statsStep]; rw [u32_add_u32, Nat.add_assoc]
    · rw [h6]; simp only [statsStep]; rw [u32_add_u32, Nat.add_assoc]

/-- The packet accumulators always hold values in the range of `uint32_t`. -/
theorem foldl_statsStep_range (T : ℚ) (stats : FlowStatsContainer) (acc : StatsAcc)
    (h : acc.txPackets < 2 ^ 32 ∧ acc.rxPackets < 2 ^ 32 ∧ acc.lostPackets < 2 ^ 32) :
    (stats.foldl (statsStep T) acc).txPackets < 2 ^ 32 ∧
    (stats.foldl (statsStep T) acc).rxPackets < 2 ^ 32 ∧
    (stats.foldl (statsStep T) acc).lostPackets < 2 ^ 32 := by
  induction stats generalizing acc with
  | nil => simpa using h
  | cons x xs ih =>
    simp only [List.foldl_cons]
    apply ih
    simp only [statsStep, u32]
    refine ⟨Nat.mod_lt _ (by norm_num), Nat.mod_lt _ (by norm_num), Nat.mod_lt _ (by norm_num)⟩

/-- The accumulators after the loop of `RunSimulation`. -/
theorem statsLoop_eq (T : ℚ) (stats : FlowStatsContainer) :
    (statsLoop T stats).avgThroughput = (stats.map (fun stat => flowThroughput T stat.2)).sum ∧
    (statsLoop T stats).avgDelay = (stats.map (fun stat => flowDelay stat.2)).sum ∧
    (statsLoop T stats).avgJitter = (stats.map (fun stat => flowJitter stat.2)).sum ∧
    (statsLoop T stats).txPackets = u32 (flowTotal (fun s => s.txPackets) stats) ∧
    (statsLoop T stats).rxPackets = u32 (flowTotal (fun s => s.rxPackets) stats) ∧
    (statsLoop T stats).lostPackets = u32 (flowTotal (fun s => s.lostPackets) stats) := by
  obtain ⟨h1, h2, h3, h4, h5, h6⟩ := foldl_statsStep T stats statsInit
  obtain ⟨r1, r2, r3⟩ := foldl_statsStep_range T stats statsInit
    (by simp [statsInit])
  simp only [statsInit, zero_add, Nat.zero_add] at h1 h2 h3 h4 h5 h6
  unfold statsLoop
  refine ⟨h1, h2, h3, ?_, ?_, ?_⟩
  · rw [← h4]; exact (Nat.mod_eq_of_lt r1).symm
  · rw [← h5]; exact (Nat.mod_eq_of_lt r2).symm
  · rw [← h6]; exact (Nat.mod_eq_of_lt r3).symm

/-- The instrumented loop computes the same accumulators as the plain loop. -/
theorem foldl_statsStepTraced_fst (T : ℚ) (stats : FlowStatsContainer) (st : StatsAcc × Nat) :
    (stats.foldl (statsStepTraced T) st).1 = stats.foldl (statsStep T) st.1 := by
  induction stats generalizing st with
  | nil => rfl
  | cons x xs ih => simp only [List.foldl_cons]; rw [ih]; rfl

/-- The instrumented reduction returns the summary of `Summarize`. -/
theorem SummarizeTraced_fst (qosType : String) (stats : FlowStatsContainer) (T : ℚ) :
    (SummarizeTraced qosType stats T).1 = Summarize qosType stats T := by
  simp only [SummarizeTraced, Summarize, statsLoop, foldl_statsStepTraced_fst]

/-- Per-flow floors are below the exact values and less than one below them,
summed over a list. -/
theorem sum_floor_bounds (f g : FlowStats → ℚ) (stats : FlowStatsContainer)
    (h : ∀ stat ∈ stats, f stat.2 ≤ g stat.2 ∧ g stat.2 < f stat.2 + 1) :
    (stats.map (fun stat => f stat.2)).sum ≤ (stats.map (fun stat => g stat.2)).sum ∧
    (stats.map (fun stat => g stat.2)).sum
        ≤ (stats.map (fun stat => f stat.2)).sum + (stats.length : ℚ) ∧
    (stats ≠ [] →
      (stats.map (fun stat => g stat.2)).sum
        < (stats.map (fun stat => f stat.2)).sum + (stats.length : ℚ)) := by
  induction stats with
  | nil => simp
  | cons x xs ih =>
    have hx := h x (List.mem_cons_self x xs)
    obtain ⟨i1, i2, _⟩ := ih (fun stat hs => h stat (List.mem_cons_of_mem x hs))
    simp only [List.map_cons, List.sum_cons, List.length_cons, Nat.cast_add, Nat.cast_one]
    refine ⟨by linarith, by linarith, fun _ => by linarith⟩

/-- With a non-negative delay sum the truncating quotient of line 202 is the
floor of the exact quotient. -/
theorem flowDelay_eq_floor (s : FlowStats) (h : 0 ≤ s.delaySumMs) :
    flowDelay s = ((⌊exactFlowDelay s⌋ : Int) : ℚ) := by
  unfold flowDelay exactFlowDelay
  by_cases hr : s.rxPackets > 0
  · simp only [hr, if_true]
    rw [Int.tdiv_eq_ediv h (Int.natCast_nonneg _)]
    have := Rat.floor_intCast_div_natCast s.delaySumMs s.rxPackets
    rw [this]
  · simp [hr]

/-- With a non-negative jitter sum the truncating quotient of line 203 is the
floor of the exact quotient. -/
theorem flowJitter_eq_floor (s : FlowStats) (h : 0 ≤ s.jitterSumMs) :
    flowJitter s = ((⌊exactFlowJitter s⌋ : Int) : ℚ) := by
  unfold flowJitter exactFlowJitter
  by_cases hr : s.rxPackets > 1
  · simp only [hr, if_true]
    rw [Int.tdiv_eq_ediv h (Int.natCast_nonneg _)]
    have hc : ((s.rxPackets : ℚ) - 1) = (((s.rxPackets - 1 : Nat) : Nat) : ℚ) := by
      rw [Nat.cast_sub (by omega)]; simp
    rw [hc, Rat.floor_intCast_div_natCast]
  · simp [hr]

/-! ## Claims on the statistics reduction -/

/-- C5: for every variant name and every duration, zero included, the reduction
of the empty flow map executes no division and returns a summary whose
throughput, delay, jitter, loss rate and packet totals are all zero. -/
theorem summarize_empty_all_zero (qosType : String) (T : ℚ) :
    SummarizeTraced qosType [] T = (Summarize qosType [] T, 0) ∧
    Summarize qosType [] T =
      { qosType := qosType, avgThroughput := 0, avgDelay := 0, avgJitter := 0,
        packetLossRate := 0, txPackets := 0, rxPackets := 0, lostPackets := 0 } ∧
    Summarize qosType [] 0 =
      { qosType := qosType, avgThroughput := 0, avgDelay := 0, avgJitter := 0,
        packetLossRate := 0, txPackets := 0, rxPackets := 0, lostPackets := 0 } := by
  refine ⟨?_, ?_, ?_⟩ <;>
    simp [SummarizeTraced, Summarize, statsLoop, statsInit]

/-- C3: for a non-empty flow map and a duration `T > 0` the reported average
throughput is the sum of the per-flow terms `rxBytes * 8 / (T * 10^6)` divided
by the number of flows, so that `avgThroughput * flowCount * T * 10^6` equals
eight times the total of the received bytes. -/
theorem summarize_avgThroughput (qosType : String) (stats : FlowStatsContainer) (T : ℚ)
    (hne : stats ≠ []) (hT : 0 < T) :
    (Summarize qosType stats T).avgThroughput
        = (stats.map (fun stat => (stat.2.rxBytes : ℚ) * 8 / (T * 10 ^ 6))).sum
            / (stats.length : ℚ) ∧
    (Summarize qosType stats T).avgThroughput * (stats.length : ℚ) * T * 10 ^ 6
        = 8 * (flowTotal (fun s => s.rxBytes) stats : ℚ) := by
  have hlen : (stats.length : ℚ) ≠ 0 := by
    have : stats.length ≠ 0 := fun h => hne (List.length_eq_zero.mp h)
    exact_mod_cast this
  have hemp : stats.isEmpty = false := by
    cases stats with
    | nil => exact absurd rfl hne
    | cons _ _ => rfl
  have hsum : ∀ l : FlowStatsContainer,
      (l.map (fun stat => flowThroughput T stat.2)).sum * (T * 10 ^ 6)
        = 8 * (flowTotal (fun s => s.rxBytes) l : ℚ) := by
    intro l
    induction l with
    | nil => simp [flowTotal]
    | cons x xs ih =>
      simp only [List.map_cons, List.sum_cons, flowTotal, Nat.cast_add] at ih ⊢
      rw [add_mul, ih]
      unfold flowThroughput
      field_simp
      ring
  have h1 := (statsLoop_eq T stats).1
  have hval : (Summarize qosType stats T).avgThroughput
      = (stats.map (fun stat => flowThroughput T stat.2)).sum / (stats.length : ℚ) := by
    simp only [Summarize, hemp, h1]
    simp
  refine ⟨?_, ?_⟩
  · rw [hval]
    have : (fun stat : FlowId × FlowStats => flowThroughput T stat.2)
        = (fun stat => (stat.2.rxBytes : ℚ) * 8 / (T * 10 ^ 6)) := by
      funext stat
      unfold flowThroughput
      norm_num
    rw [this]
  · rw [hval, ← hsum stats]
    field_simp
    ring

/-- Witness for C3 on the single-flow example: 950000 bytes over 100 s give
0.076 Mbps. -/
theorem summarize_avgThroughput_witness :
    (Summarize "EDCA" exampleStats 100).avgThroughput * (exampleStats.length : ℚ) * 100 * 10 ^ 6
        = 8 * (flowTotal (fun s => s.rxBytes) exampleStats : ℚ) ∧
    (Summarize "EDCA" exampleStats 100).avgThroughput = 76 / 1000 :=
  ⟨(summarize_avgThroughput "EDCA" exampleStats 100 (by decide) (by norm_num)).2,
   by norm_num [Summarize, statsLoop, statsStep, statsInit, exampleStats, flowThroughput]⟩

/-- C4, as stated, fails: with two flows of `2^31` transmitted packets each the
reported total of transmitted packets is 0, not the sum `2^32` of the per-flow
counts, and the reported loss rate is 0 although every packet was lost. -/
theorem summarize_totals_wrap :
    (Summarize "EDCA" wrapStats 100).txPackets = 0 ∧
    flowTotal (fun s => s.txPackets) wrapStats = 4294967296 ∧
    (Summarize "EDCA" wrapStats 100).txPackets ≠ flowTotal (fun s => s.txPackets) wrapStats ∧
    (Summarize "EDCA" wrapStats 100).packetLossRate = 0 := by
  refine ⟨?_, ?_, ?_, ?_⟩ <;>
    norm_num [Summarize, statsLoop, statsStep, statsInit, wrapStats, flowTotal, u32]

/-- C4, amended: the reported tx, rx and lost totals are the sums of the
per-flow counts reduced modulo `2^32`, hence the sums themselves whenever these
are below `2^32`; the loss rate is `100 * totalLost / totalTx` of the reported
totals when the reported `totalTx` is positive and 0 when it is 0, whatever the
value of `totalLost`. -/
theorem summarize_totals_lossRate (qosType : String) (stats : FlowStatsContainer) (T : ℚ) :
    (Summarize qosType stats T).txPackets = flowTotal (fun s => s.txPackets) stats % 2 ^ 32 ∧
    (Summarize qosType stats T).rxPackets = flowTotal (fun s => s.rxPackets) stats % 2 ^ 32 ∧
    (Summarize qosType stats T).lostPackets
        = flowTotal (fun s => s.lostPackets) stats % 2 ^ 32 ∧
    (flowTotal (fun s => s.txPackets) stats < 2 ^ 32 →
      (Summarize qosType stats T).txPackets = flowTotal (fun s => s.txPackets) stats) ∧
    (flowTotal (fun s => s.rxPackets) stats < 2 ^ 32 →
      (Summarize qosType stats T).rxPackets = flowTotal (fun s => s.rxPackets) stats) ∧
    (flowTotal (fun s => s.lostPackets) stats < 2 ^ 32 →
      (Summarize qosType stats T).lostPackets = flowTotal (fun s => s.lostPackets) stats) ∧
    (0 < (Summarize qosType stats T).txPackets →
      (Summarize qosType stats T).packetLossRate
        = 100 * ((Summarize qosType stats T).lostPackets : ℚ)
            / ((Summarize qosType stats T).txPackets : ℚ)) ∧
    ((Summarize qosType stats T).txPackets = 0 →
      (Summarize qosType stats T).packetLossRate = 0) := by
  obtain ⟨_, _, _, h4, h5, h6⟩ := statsLoop_eq T stats
  have e4 : (Summarize qosType stats T).txPackets
      = flowTotal (fun s => s.txPackets) stats % 2 ^ 32 := h4
  have e5 : (Summarize qosType stats T).rxPackets
      = flowTotal (fun s => s.rxPackets) stats % 2 ^ 32 := h5
  have e6 : (Summarize qosType stats T).lostPackets
      = flowTotal (fun s => s.lostPackets) stats % 2 ^ 32 := h6
  refine ⟨e4, e5, e6, ?_, ?_, ?_, ?_, ?_⟩
  · intro h; rw [e4]; exact Nat.mod_eq_of_lt h
  · intro h; rw [e5]; exact Nat.mod_eq_of_lt h
  · intro h; rw [e6]; exact Nat.mod_eq_of_lt h
  · intro h
    have h0 : 0 < (statsLoop T stats).txPackets := h
    simp only [Summarize]
    rw [if_pos h0]
  · intro h
    have h0 : ¬ (statsLoop T stats).txPackets > 0 := by
      have : (statsLoop T stats).txPackets = 0 := h
      omega
    simp only [Summarize]
    rw [if_neg h0]

/-- Witness for the amended C4 on the single-flow example: `tx = 1000` and
`lost = 50` give a loss rate of 5 percent. -/
theorem summarize_totals_lossRate_witness :
    (Summarize "EDCA" exampleStats 100).txPackets = 1000 ∧
    (Summarize "EDCA" exampleStats 100).lostPackets = 50 ∧
    (Summarize "EDCA" exampleStats 100).packetLossRate = 5 := by
  obtain ⟨_, _, _, h4, _, h6, h7, _⟩ := summarize_totals_lossRate "EDCA" exampleStats 100
  have t : (Summarize "EDCA" exampleStats 100).txPackets = 1000 :=
    (h4 (by norm_num [flowTotal, exampleStats])).trans (by simp [flowTotal, exampleStats])
  have l : (Summarize "EDCA" exampleStats 100).lostPackets = 50 :=
    (h6 (by norm_num [flowTotal, exampleStats])).trans (by simp [flowTotal, exampleStats])
  refine ⟨t, l, ?_⟩
  rw [h7 (by rw [t]; norm_num), t, l]
  norm_num

/-- C1 at the single-flow example of the specification: the reported delay is
10 ms, as claimed, but the reported jitter is 0 where the exact per-flow
quotient, and so the claimed mean, is 940/949. -/
theorem summarize_example_jitter_truncated :
    (Summarize "EDCA" exampleStats 100).avgDelay = 10 ∧
    (Summarize "EDCA" exampleStats 100).avgJitter = 0 ∧
    flowMean exactFlowDelay exampleStats = 10 ∧
    flowMean exactFlowJitter exampleStats = 940 / 949 ∧
    (Summarize "EDCA" exampleStats 100).avgJitter ≠ flowMean exactFlowJitter exampleStats := by
  have hd : Int.tdiv 9500 950 = 10 := by decide
  have hj : Int.tdiv 940 949 = 0 := by decide
  refine ⟨?_, ?_, ?_, ?_, ?_⟩ <;>
    norm_num [Summarize, statsLoop, statsStep, statsInit, exampleStats, flowDelay, flowJitter,
      flowMean, exactFlowDelay, exactFlowJitter, hd, hj]

/-- C10: for a non-empty flow map with non-negative delay and jitter sums each
per-flow term is the floor of the exact quotient (taken before averaging), the
reported averages are the means of these floors, and each reported average is
at most the exact unweighted mean and less than 1 ms below it. -/
theorem summarize_truncation_bounds (qosType : String) (stats : FlowStatsContainer) (T : ℚ)
    (hne : stats ≠ [])
    (hpos : ∀ stat ∈ stats, 0 ≤ stat.2.delaySumMs ∧ 0 ≤ stat.2.jitterSumMs) :
    (∀ stat ∈ stats,
      flowDelay stat.2 = ((⌊exactFlowDelay stat.2⌋ : Int) : ℚ) ∧
      flowJitter stat.2 = ((⌊exactFlowJitter stat.2⌋ : Int) : ℚ)) ∧
    (Summarize qosType stats T).avgDelay = flowMean flowDelay stats ∧
    (Summarize qosType stats T).avgJitter = flowMean flowJitter stats ∧
    (Summarize qosType stats T).avgDelay ≤ flowMean exactFlowDelay stats ∧
    flowMean exactFlowDelay stats - (Summarize qosType stats T).avgDelay < 1 ∧
    (Summarize qosType stats T).avgJitter ≤ flowMean exactFlowJitter stats ∧
    flowMean exactFlowJitter stats - (Summarize qosType stats T).avgJitter < 1 := by
  have hlen : (0 : ℚ) < (stats.length : ℚ) := by
    have : 0 < stats.length := List.length_pos.mpr hne
    exact_mod_cast this
  have hemp : stats.isEmpty = false := by
    cases stats with
    | nil => exact absurd rfl hne
    | cons _ _ => rfl
  obtain ⟨_, h2, h3, _, _, _⟩ := statsLoop_eq T stats
  have hfl : ∀ stat ∈ stats,
      flowDelay stat.2 = ((⌊exactFlowDelay stat.2⌋ : Int) : ℚ) ∧
      flowJitter stat.2 = ((⌊exactFlowJitter stat.2⌋ : Int) : ℚ) := fun stat hs =>
    ⟨flowDelay_eq_floor stat.2 (hpos stat hs).1, flowJitter_eq_floor stat.2 (hpos stat hs).2⟩
  have hD : (Summarize qosType stats T).avgDelay = flowMean flowDelay stats := by
    simp only [Summarize, hemp, h2, flowMean]
    simp
  have hJ : (Summarize qosType stats T).avgJitter = flowMean flowJitter stats := by
    simp only [Summarize, hemp, h3, flowMean]
    simp
  obtain ⟨d1, _, d3⟩ := sum_floor_bounds flowDelay exactFlowDelay stats (fun stat hs => by
    rw [(hfl stat hs).1]
    exact ⟨Int.floor_le _, Int.lt_floor_add_one _⟩)
  obtain ⟨j1, _, j3⟩ := sum_floor_bounds flowJitter exactFlowJitter stats (fun stat hs => by
    rw [(hfl stat hs).2]
    exact ⟨Int.floor_le _, Int.lt_floor_add_one _⟩)
  refine ⟨hfl, hD, hJ, ?_, ?_, ?_, ?_⟩
  · rw [hD]; unfold flowMean
    exact div_le_div_of_nonneg_right d1 hlen.le
  · rw [hD]; unfold flowMean
    rw [← sub_div, div_lt_one hlen]
    linarith [d3 hne]
  · rw [hJ]; unfold flowMean
    exact div_le_div_of_nonneg_right j1 hlen.le
  · rw [hJ]; unfold flowMean
    rw [← sub_div, div_lt_one hlen]
    linarith [j3 hne]

/-- Witness for C10 on the single-flow example: the reported jitter 0 is below
the exact mean 940/949 by less than 1 ms. -/
theorem summarize_truncation_bounds_witness :
    (Summarize "EDCA" exampleStats 100).avgJitter ≤ flowMean exactFlowJitter exampleStats ∧
    flowMean exactFlowJitter exampleStats - (Summarize "EDCA" exampleStats 100).avgJitter < 1 :=
  have h := summarize_truncation_bounds "EDCA" exampleStats 100 (by decide)
    (by simp [exampleStats])
  ⟨h.2.2.2.2.2.1, h.2.2.2.2.2.2⟩

/-! ## Lemmas on the generated flows -/

theorem mem_allClientApps (n : Nat) (I : ℚ) (s : Nat) (T : ℚ) (d : FlowDescriptor) :
    d ∈ allClientApps n I s T ↔
      (∃ i, i < n ∧ d = forwardClient I s T i) ∨ (∃ i, i < n ∧ d = returnClient I s T i) := by
  unfold allClientApps
  simp only [List.mem_append, List.mem_map, List.mem_range]
  constructor
  · rintro (⟨i, hi, rfl⟩ | ⟨i, hi, rfl⟩)
    · exact Or.inl ⟨i, hi, rfl⟩
    · exact Or.inr ⟨i, hi, rfl⟩
  · rintro (⟨i, hi, rfl⟩ | ⟨i, hi, rfl⟩)
    · exact Or.inl ⟨i, hi, rfl⟩
    · exact Or.inr ⟨i, hi, rfl⟩

theorem length_allClientApps (n : Nat) (I : ℚ) (s : Nat) (T : ℚ) :
    (allClientApps n I s T).length = 2 * n := by
  simp [allClientApps]
  omega

theorem filter_range_eq (n i : Nat) (h : i < n) :
    (List.range n).filter (fun j => decide (j = i)) = [i] := by
  induction n with
  | zero => omega
  | succ m ih =>
    rw [List.range_succ, List.filter_append]
    by_cases hm : i < m
    · rw [ih hm]
      have : m ≠ i := by omega
      simp [this]
    · have hi : i = m := by omega
      subst hi
      have : (List.range i).filter (fun j => decide (j = i)) = [] := by
        rw [List.filter_eq_nil_iff]
        intro j hj
        have := List.mem_range.mp hj
        simp
        omega
      rw [this]
      simp

theorem forwardFlows_allClientApps (n : Nat) (I : ℚ) (s : Nat) (T : ℚ) :
    forwardFlows (allClientApps n I s T) = (List.range n).map (forwardClient I s T) := by
  unfold forwardFlows allClientApps
  rw [List.filter_append, List.filter_map, List.filter_map]
  have h1 : ((fun d : FlowDescriptor => decide (d.direction = .forward)) ∘ forwardClient I s T)
      = fun _ => true := by
    funext j; simp [forwardClient]
  have h2 : ((fun d : FlowDescriptor => decide (d.direction = .forward)) ∘ returnClient I s T)
      = fun _ => false := by
    funext j; simp [returnClient]
  rw [h1, h2]
  simp

theorem returnFlows_allClientApps (n : Nat) (I : ℚ) (s : Nat) (T : ℚ) :
    returnFlows (allClientApps n I s T) = (List.range n).map (returnClient I s T) := by
  unfold returnFlows allClientApps
  rw [List.filter_append, List.filter_map, List.filter_map]
  have h1 : ((fun d : FlowDescriptor => decide (d.direction = .ret)) ∘ forwardClient I s T)
      = fun _ => false := by
    funext j; simp [forwardClient]
  have h2 : ((fun d : FlowDescriptor => decide (d.direction = .ret)) ∘ returnClient I s T)
      = fun _ => true := by
    funext j; simp [returnClient]
  rw [h1, h2]
  simp

theorem filter_isForwardOf (n : Nat) (I : ℚ) (s : Nat) (T : ℚ) (i : Nat) (h : i < n) :
    (allClientApps n I s T).filter (isForwardOf i) = [forwardClient I s T i] := by
  unfold allClientApps
  rw [List.filter_append, List.filter_map, List.filter_map]
  have h1 : (isForwardOf i ∘ forwardClient I s T) = fun j => decide (j = i) := by
    funext j; simp [isForwardOf, forwardClient]
  have h2 : (isForwardOf i ∘ returnClient I s T) = fun _ => false := by
    funext j; simp [isForwardOf, returnClient]
  rw [h1, h2, filter_range_eq n i h]
  simp

theorem filter_isReturnTo (n : Nat) (I : ℚ) (s : Nat) (T : ℚ) (i : Nat) (h : i < n) :
    (allClientApps n I s T).filter (isReturnTo i) = [returnClient I s T i] := by
  unfold allClientApps
  rw [List.filter_append, List.filter_map, List.filter_map]
  have h1 : (isReturnTo i ∘ forwardClient I s T) = fun _ => false := by
    funext j; simp [isReturnTo, forwardClient]
  have h2 : (isReturnTo i ∘ returnClient I s T) = fun j => decide (j = i) := by
    funext j; simp [isReturnTo, returnClient]
  rw [h1, h2, filter_range_eq n i h]
  simp

/-! ## Claims on the generated flows -/

/-- C2, as stated, fails: in the scenario of the program (three stations) the
destination ports of the six flows are 5000, 5000, 5000, 6000, 6001, 6002, so
they are not pairwise distinct. -/
theorem ports_not_distinct :
    (allClientApps nWifiNodes packetInterval packetSize simulationTime).map (fun d => d.port)
        = [5000, 5000, 5000, 6000, 6001, 6002] ∧
    ¬ ((allClientApps nWifiNodes packetInterval packetSize simulationTime).map
        (fun d => d.port)).Nodup := by
  have h : (allClientApps nWifiNodes packetInterval packetSize simulationTime).map
      (fun d => d.port) = [5000, 5000, 5000, 6000, 6001, 6002] := by
    simp [allClientApps, nWifiNodes, List.range_succ, forwardClient, returnClient, serverPort, u16]
  refine ⟨h, ?_⟩
  rw [h]
  decide

/-- C2, amended: for every station count `n ≤ 59536` all forward flows share
the destination port 5000 of the single server application (they differ in
their source station), while the destination ports `6000 + i` of the `n` return
flows are pairwise distinct and different from 5000. -/
theorem return_ports_distinct (n : Nat) (I : ℚ) (s : Nat) (T : ℚ) (hn : n ≤ 59536) :
    (∀ d ∈ forwardFlows (allClientApps n I s T), d.port = 5000) ∧
    ((forwardFlows (allClientApps n I s T)).map (fun d => d.source)).Nodup ∧
    (returnFlows (allClientApps n I s T)).map (fun d => d.port)
        = (List.range n).map (fun i => 6000 + i) ∧
    ((returnFlows (allClientApps n I s T)).map (fun d => d.port)).Nodup ∧
    (∀ d ∈ returnFlows (allClientApps n I s T), d.port ≠ 5000) := by
  rw [forwardFlows_allClientApps, returnFlows_allClientApps]
  have hport : (List.map (fun d => d.port) (List.map (returnClient I s T) (List.range n)))
      = (List.range n).map (fun i => 6000 + i) := by
    rw [List.map_map]
    apply List.map_congr_left
    intro i hi
    have := List.mem_range.mp hi
    simp only [Function.comp, returnClient, u16]
    omega
  refine ⟨?_, ?_, hport, ?_, ?_⟩
  · intro d hd
    obtain ⟨i, _, rfl⟩ := List.mem_map.mp hd
    rfl
  · rw [List.map_map]
    refine (List.nodup_range n).map ?_
    intro i j hij
    simpa [forwardClient] using hij
  · rw [hport]
    refine (List.nodup_range n).map ?_
    intro i j hij
    simpa using hij
  · intro d hd
    obtain ⟨i, hi, rfl⟩ := List.mem_map.mp hd
    have := List.mem_range.mp hi
    simp only [returnClient, u16]
    omega

/-- Witness for the amended C2 at the three stations of the program: the return
ports are 6000, 6001 and 6002. -/
theorem return_ports_distinct_witness :
    (returnFlows (allClientApps 3 50 1000 100)).map (fun d => d.port) = [6000, 6001, 6002] ∧
    ((returnFlows (allClientApps 3 50 1000 100)).map (fun d => d.port)).Nodup :=
  have h := return_ports_distinct 3 50 1000 100 (by decide)
  ⟨h.2.2.1.trans (by decide), h.2.2.2.1⟩

/-- C6, as stated, fails: with the three stations of the program and a base
interval of 50.5 ms the forward flow of station 0 is installed with a send
interval of 50 ms, not `I + 10 * 0 = 50.5` ms, and every return flow with
70 ms, not `I + 20 = 70.5` ms, because `MilliSeconds` receives whole
milliseconds. -/
theorem interval_fraction_dropped :
    (∃ d ∈ allClientApps 3 (101 / 2) 1000 100,
      isForwardOf 0 d = true ∧ d.intervalMs = some 50) ∧
    (∃ d ∈ allClientApps 3 (101 / 2) 1000 100,
      isReturnTo 0 d = true ∧ d.intervalMs = some 70) ∧
    ((50 : Nat) : ℚ) ≠ 101 / 2 + 10 * 0 ∧ ((70 : Nat) : ℚ) ≠ 101 / 2 + 20 := by
  refine ⟨⟨forwardClient (101 / 2) 1000 100 0, ?_, ?_, ?_⟩,
    ⟨returnClient (101 / 2) 1000 100 0, ?_, ?_, ?_⟩, by norm_num, by norm_num⟩
  · exact (mem_allClientApps _ _ _ _ _).mpr (Or.inl ⟨0, by decide, rfl⟩)
  · simp [isForwardOf, forwardClient]
  · have hf : ⌊(101 / 2 : ℚ)⌋ = 50 := by
      rw [Int.floor_eq_iff]; norm_num
    simp only [forwardClient, u32, doubleToUint64]
    norm_num [hf]
    rfl
  · exact (mem_allClientApps _ _ _ _ _).mpr (Or.inr ⟨0, by decide, rfl⟩)
  · simp [isReturnTo, returnClient]
  · have hf : ⌊(101 / 2 + 20 : ℚ)⌋ = 70 := by
      rw [Int.floor_eq_iff]; norm_num
    have hc : (-1 : ℚ) < 101 / 2 + 20 ∧ (101 / 2 + 20 : ℚ) < 2 ^ 64 := by norm_num
    simp only [returnClient, doubleToUint64]
    rw [if_pos hc, hf]
    rfl

/-- C6, amended: for every station count `n ≤ 429496730`, base interval
`0 ≤ I < 2^63` and packet size `s` the generator produces exactly `2 n`
descriptors: for each station `i < n` exactly one forward flow, from station
`i` to the server, whose send interval is `I + 10 i` ms with the fraction
dropped, and exactly one return flow, from the server to station `i`, whose
send interval is `I + 20` ms with the fraction dropped and whose start time is
`10 + 2 i` s; for a whole number `I` of milliseconds the intervals are
`I + 10 i` and `I + 20`; every flow has packet size `s`, and `n = 0` gives the
empty list. -/
theorem allClientApps_descriptors (n : Nat) (I : ℚ) (s : Nat) (T : ℚ)
    (hn : n ≤ 429496730) (hI0 : 0 ≤ I) (hI1 : I < 2 ^ 63) :
    (allClientApps n I s T).length = 2 * n ∧
    (∀ i, i < n →
      (allClientApps n I s T).filter (isForwardOf i) =
        [{ source := .station i, destination := .server, direction := .forward,
           port := 5000, packetSize := s, intervalMs := some (⌊I⌋.toNat + 10 * i),
           start := 5 + 3 * (i : ℚ), stop := T }]) ∧
    (∀ i, i < n →
      (allClientApps n I s T).filter (isReturnTo i) =
        [{ source := .server, destination := .station i, direction := .ret,
           port := (6000 + i) % 65536, packetSize := s, intervalMs := some (⌊I⌋.toNat + 20),
           start := 10 + 2 * (i : ℚ), stop := T }]) ∧
    (∀ k : Nat, I = (k : ℚ) → ⌊I⌋.toNat = k) ∧
    (∀ d ∈ allClientApps n I s T, d.packetSize = s) ∧
    (n = 0 → allClientApps n I s T = []) := by
  have hfl : 0 ≤ ⌊I⌋ := Int.floor_nonneg.mpr hI0
  have hadd : ∀ m : Nat, (m : ℚ) < 2 ^ 63 →
      doubleToUint64 (I + (m : ℚ)) = some (⌊I⌋.toNat + m) := by
    intro m hm
    have hm0 : (0 : ℚ) ≤ (m : ℚ) := Nat.cast_nonneg m
    have hc : (-1 : ℚ) < I + (m : ℚ) ∧ I + (m : ℚ) < 2 ^ 64 := by
      constructor
      · linarith
      · have : (2 : ℚ) ^ 64 = 2 ^ 63 + 2 ^ 63 := by norm_num
        linarith
    unfold doubleToUint64
    rw [if_pos hc, Int.floor_add_nat]
    congr 1
    omega
  refine ⟨length_allClientApps n I s T, ?_, ?_, ?_, ?_, ?_⟩
  · intro i hi
    rw [filter_isForwardOf n I s T i hi]
    have hw : u32 (i * 10) = i * 10 := by
      unfold u32
      apply Nat.mod_eq_of_lt
      omega
    have hlt : ((i * 10 : Nat) : ℚ) < 2 ^ 63 := by
      have : i * 10 < 2 ^ 63 := by omega
      exact_mod_cast this
    simp only [forwardClient, hw, serverPort, hadd (i * 10) hlt]
    congr 2
    · rw [Nat.mul_comm]
    · ring
  · intro i hi
    rw [filter_isReturnTo n I s T i hi]
    have h20 := hadd 20 (by norm_num)
    simp only [Nat.cast_ofNat] at h20
    simp only [returnClient, u16, h20]
    congr 2
    ring
  · intro k hk
    subst hk
    simp
  · intro d hd
    rcases (mem_allClientApps n I s T d).mp hd with ⟨i, _, rfl⟩ | ⟨i, _, rfl⟩ <;> rfl
  · intro h0
    subst h0
    rfl

/-- Witness for the amended C6 at `n = 3`, `I = 50`: three forward and three
return flows, six descriptors in all, the forward flow of station 2 with send
interval 70 ms. -/
theorem allClientApps_descriptors_witness :
    (allClientApps 3 50 1000 100).length = 6 ∧
    (forwardFlows (allClientApps 3 50 1000 100)).length = 3 ∧
    (returnFlows (allClientApps 3 50 1000 100)).length = 3 ∧
    (allClientApps 3 50 1000 100).filter (isForwardOf 2) =
      [{ source := .station 2, destination := .server, direction := .forward,
         port := 5000, packetSize := 1000, intervalMs := some (⌊(50 : ℚ)⌋.toNat + 10 * 2),
         start := 5 + 3 * ((2 : Nat) : ℚ), stop := 100 }] ∧
    ⌊(50 : ℚ)⌋.toNat = 50 :=
  have h := allClientApps_descriptors 3 50 1000 100 (by decide) (by norm_num) (by norm_num)
  ⟨h.1, by simp [forwardFlows_allClientApps], by simp [returnFlows_allClientApps],
   h.2.1 2 (by decide), h.2.2.2.1 50 (by norm_num)⟩

/-- C7, as stated, fails: no positive offset separates the return start from
the forward start for every station, since with six stations the forward and
the return flow of station 5 both start at 20 s. -/
theorem return_offset_fails :
    (¬ ∃ d : ℚ, 0 < d ∧ ∀ n i : Nat, i < n →
        (forwardClient packetInterval packetSize simulationTime i).start + d
          ≤ (returnClient packetInterval packetSize simulationTime i).start) ∧
    (∃ f ∈ allClientApps 6 packetInterval packetSize simulationTime,
      ∃ r ∈ allClientApps 6 packetInterval packetSize simulationTime,
        isForwardOf 5 f = true ∧ isReturnTo 5 r = true ∧ f.start = 20 ∧ r.start = 20) := by
  constructor
  · rintro ⟨d, hd, h⟩
    have h5 := h 6 5 (by decide)
    norm_num [forwardClient, returnClient] at h5
    linarith
  · refine ⟨forwardClient packetInterval packetSize simulationTime 5,
      (mem_allClientApps _ _ _ _ _).mpr (Or.inl ⟨5, by decide, rfl⟩),
      returnClient packetInterval packetSize simulationTime 5,
      (mem_allClientApps _ _ _ _ _).mpr (Or.inr ⟨5, by decide, rfl⟩), ?_, ?_, ?_, ?_⟩
    · simp [isForwardOf, forwardClient]
    · simp [isReturnTo, returnClient]
    · norm_num [forwardClient]
    · norm_num [returnClient]

/-- C7, amended: for every station count `n ≤ 5` and every station `i < n` the
return flow of station `i` starts exactly `5 - i` s, hence at least 1 s, after
the forward flow of station `i`; for `n ≤ 3`, the station count of the program
included, no forward flow starts at the same time as any return flow. -/
theorem return_offset_small (n : Nat) (I : ℚ) (s : Nat) (T : ℚ) (hn : n ≤ 5) :
    (∀ i, i < n →
      forwardClient I s T i ∈ allClientApps n I s T ∧
      returnClient I s T i ∈ allClientApps n I s T ∧
      (returnClient I s T i).start = (forwardClient I s T i).start + (5 - (i : ℚ)) ∧
      (forwardClient I s T i).start + 1 ≤ (returnClient I s T i).start) ∧
    (n ≤ 3 → ∀ f ∈ forwardFlows (allClientApps n I s T),
      ∀ r ∈ returnFlows (allClientApps n I s T), f.start ≠ r.start) := by
  constructor
  · intro i hi
    refine ⟨(mem_allClientApps _ _ _ _ _).mpr (Or.inl ⟨i, hi, rfl⟩),
      (mem_allClientApps _ _ _ _ _).mpr (Or.inr ⟨i, hi, rfl⟩), ?_, ?_⟩
    · simp only [forwardClient, returnClient]; ring
    · simp only [forwardClient, returnClient]
      have : (i : ℚ) ≤ 4 := by
        have : i ≤ 4 := by omega
        exact_mod_cast this
      linarith
  · intro h3 f hf r hr
    rw [forwardFlows_allClientApps] at hf
    rw [returnFlows_allClientApps] at hr
    obtain ⟨j, hj, rfl⟩ := List.mem_map.mp hf
    obtain ⟨i, _, rfl⟩ := List.mem_map.mp hr
    have hj2 := List.mem_range.mp hj
    simp only [forwardClient, returnClient]
    intro heq
    have hnat : 5 + j * 3 = 10 + i * 2 := by exact_mod_cast heq
    omega

/-- Witness for the amended C7 at the three stations of the program: station 2
has forward start 11 s and return start 14 s. -/
theorem return_offset_small_witness :
    (forwardClient 50 1000 100 2).start + 1 ≤ (returnClient 50 1000 100 2).start ∧
    (∀ f ∈ forwardFlows (allClientApps 3 50 1000 100),
      ∀ r ∈ returnFlows (allClientApps 3 50 1000 100), f.start ≠ r.start) :=
  have h := return_offset_small 3 50 1000 100 (by decide)
  ⟨(h.1 2 (by decide)).2.2.2, h.2 (by decide)⟩

/-- C8, as stated, fails: with 33 stations and `T = 100` the generator returns
all 66 descriptors, among them the forward flow of station 32 with start
101 s and stop 100 s, which violates `0 ≤ start < stop ≤ T`. -/
theorem schedule_not_checked :
    (allClientApps 33 50 1000 100).length = 66 ∧
    ∃ d ∈ allClientApps 33 50 1000 100,
      d.start = 101 ∧ d.stop = 100 ∧ ¬ validSchedule 100 d := by
  refine ⟨length_allClientApps 33 50 1000 100, forwardClient 50 1000 100 32,
    (mem_allClientApps _ _ _ _ _).mpr (Or.inl ⟨32, by decide, rfl⟩), ?_, ?_, ?_⟩
  · norm_num [forwardClient]
  · rfl
  · norm_num [validSchedule, forwardClient]

/-- C8, amended: the generator has no failure case; for every station count
and duration it returns the `2 n` descriptors, each with stop time `T` and a
start time of at least 5 s, and a descriptor satisfies `0 ≤ start < stop ≤ T`
exactly when its start time is below `T`. All descriptors satisfy it when
`3 n + 2 < T` and `2 n + 8 < T`. -/
theorem schedule_within_duration (n : Nat) (I : ℚ) (s : Nat) (T : ℚ) :
    (allClientApps n I s T).length = 2 * n ∧
    (∀ d ∈ allClientApps n I s T,
      d.stop = T ∧ 5 ≤ d.start ∧ (validSchedule T d ↔ d.start < T)) ∧
    (3 * (n : ℚ) + 2 < T → 2 * (n : ℚ) + 8 < T →
      ∀ d ∈ allClientApps n I s T, validSchedule T d) := by
  have key : ∀ d ∈ allClientApps n I s T,
      d.stop = T ∧ 5 ≤ d.start ∧ d.start ≤ max (3 * (n : ℚ) + 2) (2 * (n : ℚ) + 8) := by
    intro d hd
    rcases (mem_allClientApps n I s T d).mp hd with ⟨i, hi, rfl⟩ | ⟨i, hi, rfl⟩
    · have h1 : (i : ℚ) + 1 ≤ (n : ℚ) := by exact_mod_cast hi
      have h0 : (0 : ℚ) ≤ (i : ℚ) := Nat.cast_nonneg i
      refine ⟨rfl, ?_, le_max_of_le_left ?_⟩ <;> simp only [forwardClient] <;> linarith
    · have h1 : (i : ℚ) + 1 ≤ (n : ℚ) := by exact_mod_cast hi
      have h0 : (0 : ℚ) ≤ (i : ℚ) := Nat.cast_nonneg i
      refine ⟨rfl, ?_, le_max_of_le_right ?_⟩ <;> simp only [returnClient] <;> linarith
  refine ⟨length_allClientApps n I s T, ?_, ?_⟩
  · intro d hd
    obtain ⟨h1, h2, _⟩ := key d hd
    refine ⟨h1, h2, ?_⟩
    unfold validSchedule
    rw [h1]
    constructor
    · intro h; exact h.2.1
    · intro h; exact ⟨by linarith, h, le_refl T⟩
  · intro hf hr d hd
    obtain ⟨h1, h2, h3⟩ := key d hd
    unfold validSchedule
    rw [h1]
    have : max (3 * (n : ℚ) + 2) (2 * (n : ℚ) + 8) < T := max_lt hf hr
    exact ⟨by linarith, by linarith, le_refl T⟩

/-- Witness for the amended C8 at `n = 3`, `T = 100`: every start and stop time
lies within `[0, 100]`. -/
theorem schedule_within_duration_witness :
    ∀ d ∈ allClientApps 3 50 1000 100, validSchedule 100 d :=
  (schedule_within_duration 3 50 1000 100).2.2 (by norm_num) (by norm_num)

/-! ## Claims on the QoS policy -/

/-- C9, as stated, fails: a name outside the variant set, such as VOICE, is not
rejected; the settings of the WMM branch are applied to it. -/
theorem unknown_variant_gets_wmm :
    configureQos "VOICE" initialPolicy = configureQos "WMM" initialPolicy ∧
    configureQos "VOICE" initialPolicy
      = { stationManager := .minstrelHt, queueMaxSize := some 800,
          queueMaxDelayMs := some 50 } ∧
    configureQos "VOICE" initialPolicy ≠ initialPolicy := by
  refine ⟨?_, ?_, ?_⟩ <;> decide

/-- C9, amended: policy selection never fails. The name EDCA selects queue
capacity 500 packets, max queueing delay 100 ms and the constant-rate manager;
every other name, WMM included, selects queue capacity 800 packets, max
queueing delay 50 ms and the Minstrel-HT manager; `main` passes only the names
EDCA and WMM. -/
theorem configureQos_presets (qosType : String) (prior : VariantPolicy) :
    (qosType = "EDCA" →
      configureQos qosType prior
        = { stationManager := .constantRate, queueMaxSize := some 500,
            queueMaxDelayMs := some 100 }) ∧
    (qosType ≠ "EDCA" →
      configureQos qosType prior
        = { stationManager := .minstrelHt, queueMaxSize := some 800,
            queueMaxDelayMs := some 50 }) ∧
    configureQos "WMM" prior
        = { stationManager := .minstrelHt, queueMaxSize := some 800,
            queueMaxDelayMs := some 50 } ∧
    mainVariants = ["EDCA", "WMM"] := by
  refine ⟨?_, ?_, ?_, rfl⟩
  · intro h
    subst h
    simp [configureQos]
  · intro h
    simp [configureQos, h]
  · simp [configureQos]

/-- Witness for the amended C9: the two runs of `main`, the second one starting
from the defaults left by the first. -/
theorem configureQos_presets_witness :
    configureQos "EDCA" initialPolicy
        = { stationManager := .constantRate, queueMaxSize := some 500,
            queueMaxDelayMs := some 100 } ∧
    configureQos "WMM" (configureQos "EDCA" initialPolicy)
        = { stationManager := .minstrelHt, queueMaxSize := some 800,
            queueMaxDelayMs := some 50 } :=
  ⟨(configureQos_presets "EDCA" initialPolicy).1 rfl,
   (configureQos_presets "WMM" (configureQos "EDCA" initialPolicy)).2.1 (by decide)⟩

end VoipQos
